import Mathlib

/-!
Verification of the GraphQL autocompletion engine
(`getAutocompleteSuggestions` and its helpers, `src/unnamed/part_000`).

The development below is a shallow embedding of the JavaScript source.
JavaScript objects become Lean structures; `null`/`undefined` become
`Option`; JS string truthiness (`""` and `null` are falsy) is made
explicit.  The external lexer (`onlineParser`/`CharacterStream`) is
out of scope for the repository and is modelled as an abstract step
function (`OnlineParser`) that the scanning loop of the source drives
exactly as the code does.  Helpers imported from `./autocompleteUtils`
(`hintList`, `getFieldDef`, `getDefinitionState`, `forEachState`,
`objectValues`) are not under `src/`; they are modelled from the spec
and marked as such in their doc comments.
-/

/-- Cursor position: `{row, column}`, zero-indexed (spec section 3). -/
structure Point where
  row : Nat
  column : Nat
deriving DecidableEq, Repr

/-- Parser state produced by the external lexer: `kind` tag, `step`
counter, optional `name`/`type` payload and the back-reference
`prevState` to the enclosing state (spec section 3).  A JS `kind` of
`null`/`undefined` is modelled as the empty string (both are falsy and
equal to no real kind). -/
inductive State where
  | mk (kind : String) (step : Nat) (name : Option String) (type : Option String)
      (prevState : Option State) : State

def State.kind : State → String
  | .mk k _ _ _ _ => k

def State.step : State → Nat
  | .mk _ s _ _ _ => s

def State.name : State → Option String
  | .mk _ _ n _ _ => n

def State.type : State → Option String
  | .mk _ _ _ t _ => t

def State.prevState : State → Option State
  | .mk _ _ _ _ p => p

/-- JavaScript string truthiness for an optional string: `null`,
`undefined` and `""` are falsy. -/
def strTruthy : Option String → Bool
  | none => false
  | some s => s ≠ ""

/-- ContextToken returned by the token locator (spec section 3):
start/end columns of the last scanned token, its literal text, the
parser state and the lexical style. -/
structure ContextToken where
  start : Nat
  end_ : Nat
  string : String
  state : State
  style : String

/- ## Schema model

The schema introspection API is an external collaborator (spec
sections 1 and 6).  graphql-js represents types as a cyclic object
graph; a shallow embedding cannot hold cyclic values, so named types
are interned in the schema's `typeMap` and referred to by name
(`TypeRef`), while a resolved runtime type (`GQLType`) carries the
full definition of its named core.  JS reference equality `===` on
type objects becomes structural equality of definitions. -/

/-- Reference to a type as written in a schema: a name possibly
wrapped in list / non-null wrappers. -/
inductive TypeRef where
  | named (name : String)
  | list (ofType : TypeRef)
  | nonNull (ofType : TypeRef)
deriving DecidableEq, Repr

/-- Argument definition (`GraphQLArgument`). -/
structure ArgDef where
  name : String
  type : TypeRef
  description : Option String := none
deriving DecidableEq, Repr

/-- Field definition (`GraphQLField`).  `isDeprecated` is `Option`
because fields synthesized from input-object fields carry no
deprecation flag (JS `undefined`). -/
structure FieldDef where
  name : String
  type : TypeRef
  description : Option String := none
  isDeprecated : Option Bool := some false
  deprecationReason : Option String := none
  args : List ArgDef := []
deriving DecidableEq, Repr

/-- Enum member definition (`GraphQLEnumValue`): `value` is the
internal value matched by the type-info resolver. -/
structure EnumValueDef where
  name : String
  value : String
  description : Option String := none
  isDeprecated : Bool := false
  deprecationReason : Option String := none
deriving DecidableEq, Repr

/-- Input-object field definition (`GraphQLInputField`). -/
structure InputFieldDef where
  name : String
  type : TypeRef
  description : Option String := none
deriving DecidableEq, Repr

/-- Directive definition (`GraphQLDirective`): declared locations are
the uppercase location markers such as `"FIELD"`. -/
structure DirectiveDef where
  name : String
  description : Option String := none
  locations : List String := []
  args : List ArgDef := []
deriving DecidableEq, Repr

/-- The six named-type varieties of graphql-js. -/
inductive TypeDefKind where
  | scalar
  | obj
  | iface
  | union
  | enum
  | inputObject
deriving DecidableEq, Repr

/-- Named type definition.  Only the component lists relevant to its
kind are populated (`fields` for object/interface, `interfaces` for
object, `unionMembers` for union, `enumValues` for enum, `inputFields`
for input object). -/
structure TypeDef where
  name : String
  kind : TypeDefKind
  description : Option String := none
  fields : List FieldDef := []
  interfaces : List String := []
  unionMembers : List String := []
  enumValues : List EnumValueDef := []
  inputFields : List InputFieldDef := []
deriving DecidableEq, Repr

/-- A resolved runtime type: a named definition possibly wrapped in
list / non-null wrappers (corresponds to a `GraphQLType` object). -/
inductive GQLType where
  | named (d : TypeDef)
  | list (t : GQLType)
  | nonNull (t : GQLType)
deriving DecidableEq, Repr

/-- Schema: type registry, root operation type names, directive
registry. -/
structure GraphQLSchema where
  typeMap : List (String × TypeDef)
  queryTypeName : Option String := none
  mutationTypeName : Option String := none
  subscriptionTypeName : Option String := none
  directives : List DirectiveDef := []
deriving DecidableEq, Repr

/-- Lookup in the type registry (`schema.getType(name)` /
`schema.getTypeMap()[name]`). -/
def GraphQLSchema.getType (schema : GraphQLSchema) (name : String) : Option TypeDef :=
  (schema.typeMap.find? (fun p => p.1 = name)).map (fun p => p.2)

/-- Root query type (`schema.getQueryType()`). -/
def GraphQLSchema.getQueryType (schema : GraphQLSchema) : Option TypeDef :=
  schema.queryTypeName.bind schema.getType

/-- Root mutation type (`schema.getMutationType()`). -/
def GraphQLSchema.getMutationType (schema : GraphQLSchema) : Option TypeDef :=
  schema.mutationTypeName.bind schema.getType

/-- Root subscription type (`schema.getSubscriptionType()`). -/
def GraphQLSchema.getSubscriptionType (schema : GraphQLSchema) : Option TypeDef :=
  schema.subscriptionTypeName.bind schema.getType

/-- Directive lookup (`schema.getDirective(name)`). -/
def GraphQLSchema.getDirective (schema : GraphQLSchema) (name : String) : Option DirectiveDef :=
  schema.directives.find? (fun d => d.name = name)

/-- graphql `isCompositeType`: object, interface or union. -/
def isCompositeType (d : TypeDef) : Bool :=
  d.kind = TypeDefKind.obj ∨ d.kind = TypeDefKind.iface ∨ d.kind = TypeDefKind.union

/-- graphql `isAbstractType`: interface or union. -/
def isAbstractType (d : TypeDef) : Bool :=
  d.kind = TypeDefKind.iface ∨ d.kind = TypeDefKind.union

/-- graphql `isInputType` on a named type: scalar, enum or input
object. -/
def isInputTypeDef (d : TypeDef) : Bool :=
  d.kind = TypeDefKind.scalar ∨ d.kind = TypeDefKind.enum ∨ d.kind = TypeDefKind.inputObject

/-- graphql `getNamedType` on a resolved type: unwrap all list /
non-null wrappers. -/
def getNamedTypeG : GQLType → TypeDef
  | .named d => d
  | .list t => getNamedTypeG t
  | .nonNull t => getNamedTypeG t

/-- graphql `getNamedType` lifted to a possibly-absent type (JS
returns `undefined` on `undefined`). -/
def getNamedType (t : Option GQLType) : Option TypeDef :=
  t.map getNamedTypeG

/-- graphql `getNullableType`: strip one non-null wrapper. -/
def getNullableType : Option GQLType → Option GQLType
  | some (.nonNull t) => some t
  | t => t

/-- Resolve a by-name type reference against the schema registry to a
runtime type; in graphql-js the object graph makes this step implicit. -/
def resolveTypeRef (schema : GraphQLSchema) : TypeRef → Option GQLType
  | .named n => (schema.getType n).map GQLType.named
  | .list r => (resolveTypeRef schema r).map GQLType.list
  | .nonNull r => (resolveTypeRef schema r).map GQLType.nonNull

/-- graphql `schema.getPossibleTypes`: members of a union, or the
object types implementing an interface (in registry order). -/
def GraphQLSchema.getPossibleTypes (schema : GraphQLSchema) (t : TypeDef) : List TypeDef :=
  match t.kind with
  | .union => t.unionMembers.filterMap schema.getType
  | .iface =>
      (schema.typeMap.map (fun p => p.2)).filter
        (fun d => d.kind = TypeDefKind.obj ∧ d.interfaces.contains t.name)
  | _ => []

/-- graphql `doTypesOverlap`: equal types overlap; otherwise the
possible concrete types of the abstract side(s) must intersect. -/
def doTypesOverlap (schema : GraphQLSchema) (typeA typeB : TypeDef) : Bool :=
  if typeA = typeB then true
  else if isAbstractType typeA then
    if isAbstractType typeB then
      (schema.getPossibleTypes typeA).any
        (fun t => (schema.getPossibleTypes typeB).any (fun u => u = t))
    else (schema.getPossibleTypes typeA).any (fun t => t = typeB)
  else if isAbstractType typeB then
    (schema.getPossibleTypes typeB).any (fun t => t = typeA)
  else false

/-- Built-in `GraphQLBoolean` scalar; the JS identity check
`namedInputType === GraphQLBoolean` becomes structural equality with
this definition. -/
def GraphQLBoolean : TypeDef :=
  { name := "Boolean", kind := TypeDefKind.scalar,
    description := some "The [Boolean] scalar type represents [true] or [false]." }

/-- Introspection meta-field `__typename` (`TypeNameMetaFieldDef`). -/
def TypeNameMetaFieldDef : FieldDef :=
  { name := "__typename", type := TypeRef.nonNull (TypeRef.named "String"),
    description := some "The name of the current Object type at runtime.",
    isDeprecated := some false }

/-- Introspection meta-field `__schema` (`SchemaMetaFieldDef`). -/
def SchemaMetaFieldDef : FieldDef :=
  { name := "__schema", type := TypeRef.nonNull (TypeRef.named "__Schema"),
    description := some "Access the current type schema of this server.",
    isDeprecated := some false }

/-- Introspection meta-field `__type` (`TypeMetaFieldDef`). -/
def TypeMetaFieldDef : FieldDef :=
  { name := "__type", type := TypeRef.named "__Type",
    description := some "Request the type information of a single type.",
    isDeprecated := some false,
    args := [{ name := "name", type := TypeRef.nonNull (TypeRef.named "String") }] }

/-- Fields exposed by `type.getFields()` for field-name purposes:
object and interface types expose their fields; an input-object type's
`getFields()` yields its input fields (which carry no deprecation
flag); other kinds have no `getFields` method, modelled as `none`. -/
def TypeDef.getFieldsF (d : TypeDef) : Option (List FieldDef) :=
  match d.kind with
  | .obj => some d.fields
  | .iface => some d.fields
  | .inputObject =>
      some (d.inputFields.map (fun f =>
        { name := f.name, type := f.type, description := f.description,
          isDeprecated := none, deprecationReason := none, args := [] }))
  | _ => none

/- ## Helpers from `./autocompleteUtils` (not under `src/`), modelled
from the spec. -/

/-- Suggestion (`AutocompleteSuggestionType`): display text plus
optional type / description / deprecation metadata (spec section 3). -/
structure Suggestion where
  text : String
  type : Option GQLType := none
  description : Option String := none
  isDeprecated : Option Bool := none
  deprecationReason : Option String := none
deriving DecidableEq, Repr

/-- Take the first `n` characters of a string (kernel-reducible). -/
def strTake (s : String) (n : Nat) : String :=
  String.mk (s.data.take n)

/-- Whether `pre` is a (case-sensitive) prefix of `s`. -/
def strStartsWith (pre s : String) : Bool :=
  pre.data.isPrefixOf s.data

/-- Modelled from the spec: `hintList` from `./autocompleteUtils` is
not under `src/`.  Spec section 4.4: keep only candidates whose text
has the token text up to the cursor column as a case-sensitive prefix,
unless that text is empty or purely punctuation (no alphanumeric or
underscore character), in which case all candidates pass; candidates
are returned in the order supplied, metadata untouched. -/
def hintList (cursor : Point) (token : ContextToken) (list : List Suggestion) : List Suggestion :=
  let text := strTake token.string (cursor.column - token.start)
  if text.data.all (fun c => !(c.isAlphanum || c = '_')) then list
  else list.filter (fun s => strStartsWith text s.text)

/-- Chain of a state and its ancestors, innermost first
(`state :: state.prevState :: ...`). -/
def State.chainIn : State → List State
  | .mk k s n t none => [State.mk k s n t none]
  | .mk k s n t (some p) => State.mk k s n t (some p) :: State.chainIn p

/-- Modelled from the spec: `forEachState` from `./autocompleteUtils`
is not under `src/`.  Spec section 4.2: the resolver first collects the
`prevState` chain and then iterates it from the root (outermost state)
to the given state; this is that outermost-first enumeration. -/
def State.chainOut (s : State) : List State :=
  s.chainIn.reverse

/-- Modelled from the spec: `getDefinitionState` from
`./autocompleteUtils` is not under `src/`.  It returns the innermost
enclosing operation- or fragment-definition state of the token state's
chain (spec sections 4.4 and 9: the self-reference exclusion checks the
innermost enclosing fragment-definition state's name). -/
def getDefinitionState (tokenState : State) : Option State :=
  tokenState.chainOut.foldl
    (fun acc st =>
      match st.kind with
      | "Query" => some st
      | "ShortQuery" => some st
      | "Mutation" => some st
      | "Subscription" => some st
      | "FragmentDefinition" => some st
      | _ => acc)
    none

/-- Modelled from the spec: `getFieldDef` from `./autocompleteUtils`
is not under `src/`.  Spec section 4.2: field-name resolution against
the parent type using the schema's own resolution, including the
meta-fields `__schema` / `__type` (on the query root type) and
`__typename` (on any composite type). -/
def getFieldDef (schema : GraphQLSchema) (type : TypeDef) (fieldName : String) :
    Option FieldDef :=
  if fieldName = SchemaMetaFieldDef.name ∧ schema.getQueryType = some type then
    some SchemaMetaFieldDef
  else if fieldName = TypeMetaFieldDef.name ∧ schema.getQueryType = some type then
    some TypeMetaFieldDef
  else if fieldName = TypeNameMetaFieldDef.name ∧ isCompositeType type then
    some TypeNameMetaFieldDef
  else
    match type.getFieldsF with
    | some fields => fields.find? (fun f => f.name = fieldName)
    | none => none

/- ## Type Context Resolver (`getTypeInfo`, source lines 495-627). -/

/-- TypeInfo snapshot built by `getTypeInfo`; every field starts as
JS `undefined` (`none`). -/
structure TypeInfo where
  type : Option GQLType := none
  parentType : Option TypeDef := none
  inputType : Option GQLType := none
  directiveDef : Option DirectiveDef := none
  enumValue : Option EnumValueDef := none
  fieldDef : Option FieldDef := none
  argDef : Option ArgDef := none
  argDefs : Option (List ArgDef) := none
  objectFieldDefs : Option (List InputFieldDef) := none
deriving DecidableEq, Repr

/-- One step of the `forEachState` fold in `getTypeInfo`: the `switch
(state.kind)` of source lines 507-613, translated case by case.  A
kind matching no case (including `"Invalid"`) leaves the accumulator
untouched. -/
def typeInfoStep (schema : GraphQLSchema) (acc : TypeInfo) (st : State) : TypeInfo :=
  match st.kind with
  | "Query" => { acc with type := schema.getQueryType.map GQLType.named }
  | "ShortQuery" => { acc with type := schema.getQueryType.map GQLType.named }
  | "Mutation" => { acc with type := schema.getMutationType.map GQLType.named }
  | "Subscription" => { acc with type := schema.getSubscriptionType.map GQLType.named }
  | "InlineFragment" =>
      -- `if (state.type) { type = schema.getType(state.type); }`
      match st.type with
      | some t => if t ≠ "" then { acc with type := (schema.getType t).map GQLType.named } else acc
      | none => acc
  | "FragmentDefinition" =>
      match st.type with
      | some t => if t ≠ "" then { acc with type := (schema.getType t).map GQLType.named } else acc
      | none => acc
  | "Field" =>
      -- `if (!type || !state.name) { fieldDef = null; } else { ... }`
      if acc.type = none ∨ ¬ strTruthy st.name then { acc with fieldDef := none }
      else
        let fieldDef := match acc.parentType with
          | some parentType => getFieldDef schema parentType (st.name.getD "")
          | none => none
        { acc with fieldDef := fieldDef,
                   type := fieldDef.bind (fun f => resolveTypeRef schema f.type) }
  | "AliasedField" =>
      if acc.type = none ∨ ¬ strTruthy st.name then { acc with fieldDef := none }
      else
        let fieldDef := match acc.parentType with
          | some parentType => getFieldDef schema parentType (st.name.getD "")
          | none => none
        { acc with fieldDef := fieldDef,
                   type := fieldDef.bind (fun f => resolveTypeRef schema f.type) }
  | "SelectionSet" => { acc with parentType := getNamedType acc.type }
  | "Directive" =>
      { acc with directiveDef :=
          if strTruthy st.name then schema.getDirective (st.name.getD "") else none }
  | "Arguments" =>
      match st.prevState with
      | none => { acc with argDefs := none }
      | some prev =>
          match prev.kind with
          | "Field" => { acc with argDefs := acc.fieldDef.map (fun f => f.args) }
          | "Directive" => { acc with argDefs := acc.directiveDef.map (fun d => d.args) }
          | "AliasedField" =>
              if ¬ strTruthy prev.name then { acc with argDefs := none }
              else
                let field := match acc.parentType with
                  | some parentType => getFieldDef schema parentType (prev.name.getD "")
                  | none => none
                match field with
                | none => { acc with argDefs := none }
                | some f => { acc with argDefs := some f.args }
          | _ => { acc with argDefs := none }
  | "Argument" =>
      -- An unmatched name leaves `argDef` at its previous value (the
      -- loop only assigns on a match); `inputType` is then taken from
      -- whatever `argDef` holds.
      let argDef := match acc.argDefs with
        | some defs =>
            match defs.find? (fun d => st.name = some d.name) with
            | some d => some d
            | none => acc.argDef
        | none => acc.argDef
      { acc with argDef := argDef,
                 inputType := argDef.bind (fun a => resolveTypeRef schema a.type) }
  | "EnumValue" =>
      let enumType := getNamedType acc.inputType
      { acc with enumValue :=
          match enumType with
          | some d =>
              if d.kind = TypeDefKind.enum then
                d.enumValues.find? (fun val => st.name = some val.value)
              else none
          | none => none }
  | "ListValue" =>
      let nullableType := getNullableType acc.inputType
      { acc with inputType :=
          match nullableType with
          | some (.list t) => some t
          | _ => none }
  | "ObjectValue" =>
      let objectType := getNamedType acc.inputType
      { acc with objectFieldDefs :=
          match objectType with
          | some d => if d.kind = TypeDefKind.inputObject then some d.inputFields else none
          | none => none }
  | "ObjectField" =>
      let objectField :=
        if strTruthy st.name then
          match acc.objectFieldDefs with
          | some defs => defs.find? (fun f => some f.name = st.name)
          | none => none
        else none
      { acc with inputType := objectField.bind (fun f => resolveTypeRef schema f.type) }
  | "NamedType" =>
      match st.name with
      | some n => if n ≠ "" then { acc with type := (schema.getType n).map GQLType.named } else acc
      | none => acc
  | _ => acc

/-- `getTypeInfo(schema, tokenState)` (source lines 495-627): fold the
per-kind step over the state chain, outermost state first. -/
def getTypeInfo (schema : GraphQLSchema) (tokenState : State) : TypeInfo :=
  tokenState.chainOut.foldl (typeInfoStep schema) {}

/- ## Lexer model and scanning loop (`runOnlineParser`, source lines
435-469)

The incremental lexer is an external collaborator (spec sections 1
and 6).  `OnlineParser` models it as a pure step function: given the
current state, the line text and the scan column it yields the new
state, a style tag and the number of extra characters consumed beyond
the first (every call consumes at least one character, the progress
the real lexer must make to terminate).  `CharacterStream` models the
per-line stream with its token-start and current columns. -/

/-- Per-line character stream: line text, start column of the current
token, current scan column. -/
structure CharacterStream where
  sourceText : String
  start : Nat
  pos : Nat

/-- `stream.getStartOfToken()`. -/
def CharacterStream.getStartOfToken (s : CharacterStream) : Nat := s.start

/-- `stream.getCurrentPosition()`. -/
def CharacterStream.getCurrentPosition (s : CharacterStream) : Nat := s.pos

/-- `stream.current()`: the literal text of the current token. -/
def CharacterStream.current (s : CharacterStream) : String :=
  String.mk ((s.sourceText.data.drop s.start).take (s.pos - s.start))

/-- Result of one `parser.token(stream, state)` call: the mutated
state, the returned style, and the extra characters consumed beyond
the first. -/
structure TokenResult where
  state : State
  style : String
  extra : Nat

/-- Abstract incremental lexer (`onlineParser()` instance):
`startState` plus the token step function. -/
structure OnlineParser where
  startState : State
  tokenFn : State → String → Nat → TokenResult

/-- Callback type of `runOnlineParser` (source lines 428-433); closure
mutation becomes an explicit accumulator, and the `'BREAK'` return
becomes the Boolean component. -/
def CallbackFn (σ : Type) : Type :=
  CharacterStream → State → String → Nat → σ → σ × Bool

/-- State threaded through the line-by-line scan: persistent parser
state, last style, last stream, callback accumulator. -/
structure ScanState (σ : Type) where
  state : State
  style : String
  stream : CharacterStream
  acc : σ

/-- Inner `while (!stream.eol())` loop of `runOnlineParser`, fuelled.
The Boolean result records whether the loop exited via `'BREAK'`
(which in the source only leaves this inner loop).  Each iteration
consumes at least one character, so the fuel `runLine` supplies never
runs out before end-of-line. -/
def runLineFuel {σ : Type} (P : OnlineParser) (callback : CallbackFn σ) (index : Nat) :
    Nat → CharacterStream → State → String → σ → ScanState σ × Bool
  | 0, stream, state, style, acc => (⟨state, style, stream, acc⟩, false)
  | fuel + 1, stream, state, style, acc =>
    if stream.pos < stream.sourceText.length then
      let r := P.tokenFn state stream.sourceText stream.pos
      let stream' : CharacterStream :=
        { stream with start := stream.pos, pos := stream.pos + 1 + r.extra }
      let cbRes := callback stream' r.state r.style index acc
      if cbRes.2 then (⟨r.state, r.style, stream', cbRes.1⟩, true)
      else runLineFuel P callback index fuel stream' r.state r.style cbRes.1
    else (⟨state, style, stream, acc⟩, false)

/-- One line of the scan: run the lexer over the stream until
end-of-line or `'BREAK'`. -/
def runLine {σ : Type} (P : OnlineParser) (callback : CallbackFn σ) (index : Nat)
    (stream : CharacterStream) (state : State) (style : String) (acc : σ) :
    ScanState σ × Bool :=
  runLineFuel P callback index (stream.sourceText.length + 1 - stream.pos)
    stream state style acc

/-- `queryText.split('\n')` (kernel-reducible). -/
def splitOnNewlineAux : List Char → List Char → List String
  | [], cur => [String.mk cur.reverse]
  | c :: rest, cur =>
    if c = '\n' then String.mk cur.reverse :: splitOnNewlineAux rest []
    else splitOnNewlineAux rest (c :: cur)

/-- Split a document into lines at newline characters. -/
def splitLines (queryText : String) : List String :=
  splitOnNewlineAux queryText.data []

/-- `runOnlineParser(queryText, callback)` (source lines 435-469):
line-by-line scan with one persistent parser state, reset to the start
state after a line when the state's kind is empty; a `'BREAK'` from
the callback leaves only the current line's loop — the following lines
are still scanned.  Returns the token of the last stream position
together with the callback accumulator. -/
def runOnlineParser {σ : Type} (P : OnlineParser) (queryText : String)
    (callback : CallbackFn σ) (init : σ) : ContextToken × σ :=
  let lines := splitLines queryText
  let final := lines.enum.foldl
    (fun (s : ScanState σ) (p : Nat × String) =>
      let stream0 : CharacterStream := { sourceText := p.2, start := 0, pos := 0 }
      let r := (runLine P callback p.1 stream0 s.state s.style s.acc).1
      -- `if (!state.kind) { state = parser.startState(); }`
      let state' := if r.state.kind = "" then P.startState else r.state
      { r with state := state' })
    ⟨P.startState, "", { sourceText := "", start := 0, pos := 0 }, init⟩
  (⟨final.stream.getStartOfToken, final.stream.getCurrentPosition,
    final.stream.current, final.state, final.style⟩, final.acc)

/- ## Token Locator (`getTokenAtPosition`, source lines 395-419). -/

/-- Closure variables of `getTokenAtPosition`: the style / state /
string captured at the cursor's row, all initially `null`. -/
structure CaptureAcc where
  styleAtCursor : Option String := none
  stateAtCursor : Option State := none
  stringAtCursor : Option String := none

/-- Callback of `getTokenAtPosition` (source lines 399-408): on the
cursor's row, break when the token's end column already exceeds the
cursor's column, otherwise capture style, state and token text.  The
spread copy `{...state}` is a value copy here; its aliasing behaviour
on the live heap is analysed separately with the heap model below. -/
def captureCallback (cursor : Point) : CallbackFn CaptureAcc :=
  fun stream state style index acc =>
    if index = cursor.row then
      if stream.getCurrentPosition > cursor.column then (acc, true)
      else ({ styleAtCursor := some style, stateAtCursor := some state,
              stringAtCursor := some stream.current }, false)
    else (acc, false)

/-- JavaScript `x || y` on an optional string: `null` and `""` both
fall back. -/
def jsOrStr : Option String → String → String
  | some s, y => if s = "" then y else s
  | none, y => y

/-- Merge step of `getTokenAtPosition` (source lines 412-418): fall
back to the end-of-scan token's string/state/style by JS truthiness
(`stringAtCursor || token.string`, …); a state object is always
truthy, so only `null` falls back there. -/
def mergeToken (acc : CaptureAcc) (token : ContextToken) : ContextToken :=
  { start := token.start, end_ := token.end_,
    string := jsOrStr acc.stringAtCursor token.string,
    state := acc.stateAtCursor.getD token.state,
    style := jsOrStr acc.styleAtCursor token.style }

/-- `getTokenAtPosition(queryText, cursor)` (source lines 395-419). -/
def getTokenAtPosition (P : OnlineParser) (queryText : String) (cursor : Point) :
    ContextToken :=
  let r := runOnlineParser P queryText (captureCallback cursor) {}
  mergeToken r.2 r.1

/- ## Fragment harvesting (`getFragmentDefinitions`, source lines
325-353). -/

/-- Locally reconstructed fragment definition: only the fragment name
(`frag.name.value`) and type-condition name
(`frag.typeCondition.name.value`) are consumed downstream. -/
structure FragmentDef where
  name : String
  typeCondition : String
deriving DecidableEq, Repr

/-- Callback of `getFragmentDefinitions`: collect every scanned state
of kind `FragmentDefinition` carrying both a name and a type. -/
def fragmentCallback : CallbackFn (List FragmentDef) :=
  fun _ state _ _ acc =>
    if state.kind = "FragmentDefinition" ∧ strTruthy state.name ∧ strTruthy state.type then
      (acc ++ [{ name := state.name.getD "", typeCondition := state.type.getD "" }], false)
    else (acc, false)

/-- `getFragmentDefinitions(queryText)`: re-scan the whole document,
ignoring the cursor, and harvest fragment definitions. -/
def getFragmentDefinitions (P : OnlineParser) (queryText : String) : List FragmentDef :=
  (runOnlineParser P queryText fragmentCallback []).2

/- ## Suggestion generators (source lines 182-393). -/

/-- Suggestion built from a field definition (source lines 202-208);
the field's by-name type reference is resolved against the schema for
the `type` metadata. -/
def fieldSuggestion (schema : GraphQLSchema) (field : FieldDef) : Suggestion :=
  { text := field.name, type := resolveTypeRef schema field.type,
    description := field.description, isDeprecated := field.isDeprecated,
    deprecationReason := field.deprecationReason }

/-- `getSuggestionsForFieldNames` (source lines 182-212): the parent
type's own fields, `__typename` pushed for abstract parents,
`__schema` / `__type` pushed for the query root, empty when the parent
type is unknown. -/
def getSuggestionsForFieldNames (cursor : Point) (token : ContextToken)
    (typeInfo : TypeInfo) (schema : GraphQLSchema) : List Suggestion :=
  match typeInfo.parentType with
  | some parentType =>
      -- `parentType.getFields instanceof Function ? objectValues(parentType.getFields()) : []`
      let fields := match parentType.getFieldsF with
        | some fs => fs
        | none => []
      let fields1 := if isAbstractType parentType then fields ++ [TypeNameMetaFieldDef]
        else fields
      let fields2 := if some parentType = schema.getQueryType then
          fields1 ++ [SchemaMetaFieldDef, TypeMetaFieldDef]
        else fields1
      hintList cursor token (fields2.map (fieldSuggestion schema))
  | none => []

/-- `getSuggestionsForInputValues` (source lines 214-241): enum
members for an enum input type, the fixed `true`/`false` literals for
the boolean type, nothing otherwise. -/
def getSuggestionsForInputValues (cursor : Point) (token : ContextToken)
    (typeInfo : TypeInfo) : List Suggestion :=
  let namedInputType := getNamedType typeInfo.inputType
  match namedInputType with
  | some d =>
      if d.kind = TypeDefKind.enum then
        hintList cursor token (d.enumValues.map (fun value =>
          { text := value.name, type := some (GQLType.named d),
            description := value.description,
            isDeprecated := some value.isDeprecated,
            deprecationReason := value.deprecationReason }))
      else if d = GraphQLBoolean then
        hintList cursor token
          [{ text := "true", type := some (GQLType.named GraphQLBoolean),
             description := some "Not false." },
           { text := "false", type := some (GQLType.named GraphQLBoolean),
             description := some "Not true." }]
      else []
  | none => []

/-- Insertion-ordered upsert into the `possibleIfaceMap` of
`getSuggestionsForFragmentTypeConditions`
(`possibleIfaceMap[iface.name] = iface`). -/
def upsertIface (m : List (String × TypeDef)) (iface : TypeDef) : List (String × TypeDef) :=
  if m.any (fun p => p.1 = iface.name) then
    m.map (fun p => if p.1 = iface.name then (p.1, iface) else p)
  else m ++ [(iface.name, iface)]

/-- `getSuggestionsForFragmentTypeConditions` (source lines 243-282):
for an abstract parent the possible object types plus the interfaces
they implement (deduplicated by name), for a concrete parent that type
alone, otherwise every composite type of the schema. -/
def getSuggestionsForFragmentTypeConditions (cursor : Point) (token : ContextToken)
    (typeInfo : TypeInfo) (schema : GraphQLSchema) : List Suggestion :=
  let possibleTypes : List TypeDef :=
    match typeInfo.parentType with
    | some parentType =>
        if isAbstractType parentType then
          let possibleObjTypes := schema.getPossibleTypes parentType
          let possibleIfaceMap := possibleObjTypes.foldl
            (fun m t => (t.interfaces.filterMap schema.getType).foldl upsertIface m)
            ([] : List (String × TypeDef))
          possibleObjTypes ++ possibleIfaceMap.map (fun p => p.2)
        else [parentType]
    | none => (schema.typeMap.map (fun p => p.2)).filter isCompositeType
  hintList cursor token (possibleTypes.map (fun t =>
    { text := t.name, description := some (t.description.getD "") }))

/-- Filter of `getSuggestionsForFragmentSpread` (source lines
296-312): known type condition, no self-reference against the
definition state, composite parent and fragment types, overlapping
types. -/
def fragmentFilter (token : ContextToken) (typeInfo : TypeInfo) (schema : GraphQLSchema)
    (frag : FragmentDef) : Bool :=
  let defState := getDefinitionState token.state
  -- Only include fragments with known types.
  (schema.getType frag.typeCondition).isSome &&
  -- Only include fragments which are not cyclic.
  !(match defState with
    | some d => decide (d.kind = "FragmentDefinition") && decide (d.name = some frag.name)
    | none => false) &&
  -- Only include fragments which could possibly be spread here.
  (match typeInfo.parentType with
   | some p => isCompositeType p
   | none => false) &&
  (match schema.getType frag.typeCondition with
   | some t => isCompositeType t
   | none => false) &&
  (match typeInfo.parentType, schema.getType frag.typeCondition with
   | some p, some t => doTypesOverlap schema p t
   | _, _ => false)

/-- The `relevantFrags` list of `getSuggestionsForFragmentSpread`. -/
def relevantFragments (P : OnlineParser) (token : ContextToken) (typeInfo : TypeInfo)
    (schema : GraphQLSchema) (queryText : String) : List FragmentDef :=
  (getFragmentDefinitions P queryText).filter (fragmentFilter token typeInfo schema)

/-- `getSuggestionsForFragmentSpread` (source lines 284-323). -/
def getSuggestionsForFragmentSpread (P : OnlineParser) (cursor : Point)
    (token : ContextToken) (typeInfo : TypeInfo) (schema : GraphQLSchema)
    (queryText : String) : List Suggestion :=
  hintList cursor token
    ((relevantFragments P token typeInfo schema queryText).map (fun frag =>
      { text := frag.name,
        type := (schema.getType frag.typeCondition).map GQLType.named,
        description := some ("fragment " ++ frag.name ++ " on " ++ frag.typeCondition) }))

/-- `getSuggestionsForVariableDefinition` (source lines 355-370):
every input type of the schema's registry. -/
def getSuggestionsForVariableDefinition (cursor : Point) (token : ContextToken)
    (schema : GraphQLSchema) : List Suggestion :=
  let inputTypes := (schema.typeMap.map (fun p => p.2)).filter isInputTypeDef
  hintList cursor token (inputTypes.map (fun t =>
    { text := t.name, description := t.description }))

/-- `canUseDirective(kind, directive)` (source lines 471-491): the
switch mapping the enclosing construct's kind to a directive location
and testing membership in the directive's declared locations. -/
def canUseDirective (kind : String) (directive : DirectiveDef) : Bool :=
  let locations := directive.locations
  match kind with
  | "Query" => locations.contains "QUERY"
  | "Mutation" => locations.contains "MUTATION"
  | "Subscription" => locations.contains "SUBSCRIPTION"
  | "Field" => locations.contains "FIELD"
  | "AliasedField" => locations.contains "FIELD"
  | "FragmentDefinition" => locations.contains "FRAGMENT_DEFINITION"
  | "FragmentSpread" => locations.contains "FRAGMENT_SPREAD"
  | "InlineFragment" => locations.contains "INLINE_FRAGMENT"
  | _ => false

/-- `getSuggestionsForDirective` (source lines 372-393): the guard
`state.prevState && state.prevState.kind` requires an enclosing state
with a truthy kind; candidates are the schema directives usable at
that kind. -/
def getSuggestionsForDirective (cursor : Point) (token : ContextToken) (state : State)
    (schema : GraphQLSchema) : List Suggestion :=
  match state.prevState with
  | some prev =>
      if prev.kind ≠ "" then
        hintList cursor token
          ((schema.directives.filter (fun d => canUseDirective prev.kind d)).map (fun d =>
            { text := d.name, description := d.description }))
      else []
  | none => []

/- ## Suggestion Dispatcher (source lines 57-179). -/

/-- Whether the state's enclosing state exists and has the given kind
(`state.prevState != null && state.prevState.kind === k`). -/
def prevKindIs (state : State) (k : String) : Bool :=
  match state.prevState with
  | some prev => prev.kind = k
  | none => false

/-- Dispatch of `getAutocompleteSuggestions` on the unwrapped state's
`(kind, step)` (source lines 73-178).  The two branches whose source
bodies return only when `typeInfo` provides the relevant definition
list fall through past themselves otherwise; for their kinds every
later condition fails, so the fall-through reaches the final empty
list — the combined conditions below reproduce that. -/
def dispatchSuggestions (P : OnlineParser) (schema : GraphQLSchema) (queryText : String)
    (cursor : Point) (token : ContextToken) (state : State) (typeInfo : TypeInfo) :
    List Suggestion :=
  let kind := state.kind
  let step := state.step
  -- Definition kinds
  if kind = "Document" then
    hintList cursor token
      [{ text := "query" }, { text := "mutation" }, { text := "subscription" },
       { text := "fragment" }, { text := "\x7b" }]
  -- Field names
  else if kind = "SelectionSet" ∨ kind = "Field" ∨ kind = "AliasedField" then
    getSuggestionsForFieldNames cursor token typeInfo schema
  -- Argument names
  else if (kind = "Arguments" ∨ (kind = "Argument" ∧ step = 0)) ∧ typeInfo.argDefs.isSome then
    hintList cursor token ((typeInfo.argDefs.getD []).map (fun argDef =>
      { text := argDef.name, type := resolveTypeRef schema argDef.type,
        description := argDef.description }))
  -- Input Object fields
  else if (kind = "ObjectValue" ∨ (kind = "ObjectField" ∧ step = 0)) ∧
      typeInfo.objectFieldDefs.isSome then
    hintList cursor token ((typeInfo.objectFieldDefs.getD []).map (fun field =>
      { text := field.name, type := resolveTypeRef schema field.type,
        description := field.description }))
  -- Input values: Enum and Boolean
  else if kind = "EnumValue" ∨ (kind = "ListValue" ∧ step = 1) ∨
      (kind = "ObjectField" ∧ step = 2) ∨ (kind = "Argument" ∧ step = 2) then
    getSuggestionsForInputValues cursor token typeInfo
  -- Fragment type conditions
  else if (kind = "TypeCondition" ∧ step = 1) ∨
      (kind = "NamedType" ∧ prevKindIs state "TypeCondition") then
    getSuggestionsForFragmentTypeConditions cursor token typeInfo schema
  -- Fragment spread names
  else if kind = "FragmentSpread" ∧ step = 1 then
    getSuggestionsForFragmentSpread P cursor token typeInfo schema queryText
  -- Variable definition types
  else if (kind = "VariableDefinition" ∧ step = 2) ∨ (kind = "ListType" ∧ step = 1) ∨
      (kind = "NamedType" ∧
        (prevKindIs state "VariableDefinition" ∨ prevKindIs state "ListType")) then
    getSuggestionsForVariableDefinition cursor token schema
  -- Directive names
  else if kind = "Directive" then
    getSuggestionsForDirective cursor token state schema
  else []

/-- Body of `getAutocompleteSuggestions` after token location (source
lines 64-178): unwrap an `Invalid` state to its `prevState`, return
the empty list when that leaves no state, resolve the type context
(the source passes the original `token.state` to `getTypeInfo`), and
dispatch. -/
def suggestionsForToken (P : OnlineParser) (schema : GraphQLSchema) (queryText : String)
    (cursor : Point) (token : ContextToken) : List Suggestion :=
  let stateOpt := if token.state.kind = "Invalid" then token.state.prevState
    else some token.state
  match stateOpt with
  | none => []
  | some state =>
      dispatchSuggestions P schema queryText cursor token state
        (getTypeInfo schema token.state)

/-- `getAutocompleteSuggestions(schema, queryText, cursor)` (source
lines 57-179), parametrised by the external lexer. -/
def getAutocompleteSuggestions (P : OnlineParser) (schema : GraphQLSchema)
    (queryText : String) (cursor : Point) : List Suggestion :=
  suggestionsForToken P schema queryText cursor (getTokenAtPosition P queryText cursor)

/- ## Specification-side definitions

These definitions follow the words of the spec / claims, for
comparison with the definitions translated from the source. -/

/-- Directive-location mapping stated by the spec (section 4.4):
Query maps to QUERY, Mutation to MUTATION, Subscription to
SUBSCRIPTION, Field and AliasedField to FIELD, FragmentDefinition to
FRAGMENT_DEFINITION, FragmentSpread to FRAGMENT_SPREAD, InlineFragment
to INLINE_FRAGMENT; any other kind maps to no location. -/
def kindToDirectiveLocation : String → Option String
  | "Query" => some "QUERY"
  | "Mutation" => some "MUTATION"
  | "Subscription" => some "SUBSCRIPTION"
  | "Field" => some "FIELD"
  | "AliasedField" => some "FIELD"
  | "FragmentDefinition" => some "FRAGMENT_DEFINITION"
  | "FragmentSpread" => some "FRAGMENT_SPREAD"
  | "InlineFragment" => some "INLINE_FRAGMENT"
  | _ => none

/-- Scan semantics described by claim C3 (not the source): a `'BREAK'`
from the callback aborts the whole scan immediately, so no further
token of any line is processed and the final token reflects the stream
at the break point. -/
def runOnlineParserAbortAll {σ : Type} (P : OnlineParser) (queryText : String)
    (callback : CallbackFn σ) (init : σ) : ContextToken × σ :=
  let lines := splitLines queryText
  let final := lines.enum.foldl
    (fun (s : ScanState σ × Bool) (p : Nat × String) =>
      if s.2 then s
      else
        let stream0 : CharacterStream := { sourceText := p.2, start := 0, pos := 0 }
        let r := runLine P callback p.1 stream0 s.1.state s.1.style s.1.acc
        if r.2 then (r.1, true)
        else
          let state' := if r.1.state.kind = "" then P.startState else r.1.state
          ({ r.1 with state := state' }, false))
    (⟨P.startState, "", { sourceText := "", start := 0, pos := 0 }, init⟩, false)
  (⟨final.1.stream.getStartOfToken, final.1.stream.getCurrentPosition,
    final.1.stream.current, final.1.state, final.1.style⟩, final.1.acc)

/-- Token locator under the abort-all scan semantics of claim C3. -/
def getTokenAtPositionAbortAll (P : OnlineParser) (queryText : String) (cursor : Point) :
    ContextToken :=
  let r := runOnlineParserAbortAll P queryText (captureCallback cursor) {}
  mergeToken r.2 r.1

/- ## Heap model of the state snapshot (claim C9)

The pure embedding above has value semantics, which erases the
aliasing question of `stateAtCursor = {...state}` (source line 405).
This small heap model makes object identity explicit: parser states
are nodes addressed by index, the enclosing-state reference `prev` is
an address, the lexer's in-place update is `mutateNode`, and the
spread copy allocates one fresh node whose `prev` address is shared
with the live chain. -/

/-- Heap node: the fields of a parser state, with the enclosing-state
reference as a heap address. -/
structure StateNode where
  kind : String
  step : Nat
  name : Option String
  type : Option String
  prev : Option Nat
deriving DecidableEq, Repr

/-- Heap of live parser-state objects; a node's address is its index. -/
abbrev Heap := List StateNode

/-- The shallow copy `{...state}` of the capture site: allocate a
fresh node with the same fields — the `prev` pointer included, so the
tail of the chain stays shared with the live states.  Returns the new
heap and the snapshot's address. -/
def spreadCopy (h : Heap) (a : Nat) : Heap × Nat :=
  match h.get? a with
  | some n => (h ++ [n], h.length)
  | none => (h, a)

/-- In-place mutation of the node at an address, as the lexer performs
on its live state objects after the snapshot point. -/
def mutateNode (h : Heap) (a : Nat) (n : StateNode) : Heap :=
  h.set a n

/-- The state chain observable from an address: follow `prev` pointers
(fuel-bounded so that reading is total on arbitrary heaps). -/
def readChain (h : Heap) : Nat → Nat → List StateNode
  | 0, _ => []
  | fuel + 1, a =>
    match h.get? a with
    | none => []
    | some n =>
        n :: (match n.prev with
              | some p => readChain h fuel p
              | none => [])

/- ## Concrete instances used by witnesses and counterexamples. -/

/-- A parser state of kind `Document` with no payload. -/
def docState : State := State.mk "Document" 0 none none none

/-- Lexer instance whose every token consumes the rest of the line and
leaves the state unchanged. -/
def parserWholeLine : OnlineParser :=
  { startState := docState,
    tokenFn := fun state line _ => { state := state, style := "punctuation", extra := line.length } }

/-- An `Invalid` state with no recoverable previous state. -/
def invalidNoPrev : State := State.mk "Invalid" 0 none none none

/-- Lexer instance that starts (and stays) in an unrecoverable
`Invalid` state. -/
def parserInvalid : OnlineParser :=
  { startState := invalidNoPrev,
    tokenFn := fun state line _ => { state := state, style := "", extra := line.length } }

/-- An `Invalid` state whose `prevState` is the valid `Document`
state. -/
def invalidOverDoc : State := State.mk "Invalid" 0 none none (some docState)

/-- Schema for the argument-resolution scenarios: query root `Q` with
one field `f` taking one boolean argument `a`. -/
def booleanArgDef : ArgDef := { name := "a", type := TypeRef.named "Boolean" }

/-- Field `f(a: Boolean): Boolean` of the query root below. -/
def fieldFDef : FieldDef :=
  { name := "f", type := TypeRef.named "Boolean", args := [booleanArgDef] }

/-- Query root type `Q` with the single field `f`. -/
def queryTypeQ : TypeDef := { name := "Q", kind := TypeDefKind.obj, fields := [fieldFDef] }

/-- Schema with `Boolean` and the query root `Q`. -/
def schemaQ : GraphQLSchema :=
  { typeMap := [("Boolean", GraphQLBoolean), ("Q", queryTypeQ)],
    queryTypeName := some "Q" }

/-- State chain `Query - SelectionSet - Field f - Arguments -
Argument a - Argument zzz`: the innermost argument name matches no
declared argument of `f`, while the earlier sibling matched `a`. -/
def stArgStale : State :=
  State.mk "Argument" 2 (some "zzz") none (some
    (State.mk "Argument" 2 (some "a") none (some
      (State.mk "Arguments" 0 none none (some
        (State.mk "Field" 0 (some "f") none (some
          (State.mk "SelectionSet" 0 none none (some
            (State.mk "Query" 0 none none none))))))))))

/-- Token sitting on the unmatched argument name. -/
def tokenArgStale : ContextToken :=
  { start := 0, end_ := 0, string := "", state := stArgStale, style := "" }

/-- Object type `T`, used as both parent type and fragment type
condition. -/
def typeT : TypeDef := { name := "T", kind := TypeDefKind.obj }

/-- Schema with the single composite type `T` as query root. -/
def schemaT : GraphQLSchema := { typeMap := [("T", typeT)], queryTypeName := some "T" }

/-- Lexer instance that stays in a `FragmentDefinition` state named
`F` with type condition `T`, so a scan harvests that fragment. -/
def parserFragF : OnlineParser :=
  { startState := State.mk "FragmentDefinition" 0 (some "F") (some "T") none,
    tokenFn := fun state line _ => { state := state, style := "", extra := line.length } }

/-- Token inside a plain query operation (no enclosing fragment
definition). -/
def tokenQueryPos : ContextToken :=
  { start := 0, end_ := 0, string := "", state := State.mk "Query" 0 none none none,
    style := "" }

/-- Directive `skip` declared for the FIELD location only. -/
def skipDirective : DirectiveDef := { name := "skip", locations := ["FIELD"] }

/-- Directive declared for the FRAGMENT_DEFINITION location only. -/
def fragOnlyDirective : DirectiveDef :=
  { name := "fragOnly", locations := ["FRAGMENT_DEFINITION"] }

/-- Schema carrying the two directives above. -/
def schemaDir : GraphQLSchema :=
  { typeMap := [], directives := [skipDirective, fragOnlyDirective] }

/-- Directive state nested directly inside a field selection. -/
def stDirectiveInField : State :=
  State.mk "Directive" 1 none none (some (State.mk "Field" 0 (some "f") none none))

/-- Enum type `Color` with two members. -/
def colorEnum : TypeDef :=
  { name := "Color", kind := TypeDefKind.enum,
    enumValues := [{ name := "RED", value := "RED", description := some "red" },
                   { name := "GREEN", value := "GREEN" }] }

/-- Two-node heap: address 0 holds an outer state, address 1 holds the
live state whose `prev` points to address 0. -/
def heapTwo : Heap :=
  [{ kind := "Query", step := 0, name := none, type := none, prev := none },
   { kind := "Field", step := 1, name := some "f", type := none, prev := some 0 }]

/-- Mutated contents the lexer could write into the outer node. -/
def mutatedOuterNode : StateNode :=
  { kind := "Mutation", step := 0, name := none, type := none, prev := none }

/- ## Helper lemmas. -/

/-- The hint-list step never invents candidates: its result is a
sublist selection of the supplied list. -/
theorem hintList_mem_of_mem (cursor : Point) (token : ContextToken)
    (list : List Suggestion) (s : Suggestion) (hs : s ∈ hintList cursor token list) :
    s ∈ list := by
  simp only [hintList] at hs
  split at hs
  · exact hs
  · exact (List.mem_filter.mp hs).1

/-- The switch of `canUseDirective` agrees with the spec's
kind-to-location mapping: it accepts exactly when the kind maps to a
location declared by the directive. -/
theorem canUseDirective_iff_location (k : String) (d : DirectiveDef) :
    canUseDirective k d = true ↔
      ∃ loc, kindToDirectiveLocation k = some loc ∧ loc ∈ d.locations := by
  unfold canUseDirective kindToDirectiveLocation
  split <;> simp_all

/- ## Claim theorems. -/

/-- C10: in the ContextToken returned by the token locator, the
fallback from the captured cursor-row values to the end-of-scan
token's values is decided by truthiness, not by whether a capture
occurred: the locator is the merge of the scan's capture with the
final token, and whenever the captured string (or style) is the empty
string the merged token carries the final token's string (or style)
instead of the captured empty value. -/
theorem c10_truthiness_fallback (P : OnlineParser) (queryText : String) (cursor : Point)
    (acc : CaptureAcc) (token : ContextToken) :
    getTokenAtPosition P queryText cursor =
      mergeToken (runOnlineParser P queryText (captureCallback cursor) {}).2
        (runOnlineParser P queryText (captureCallback cursor) {}).1 ∧
    (acc.stringAtCursor = some "" → (mergeToken acc token).string = token.string) ∧
    (acc.styleAtCursor = some "" → (mergeToken acc token).style = token.style) := by
  refine ⟨rfl, fun h => ?_, fun h => ?_⟩ <;> simp [mergeToken, jsOrStr, h]

theorem c10_witness :
    (mergeToken { styleAtCursor := some "", stateAtCursor := none, stringAtCursor := some "" }
        { start := 0, end_ := 1, string := "x", state := docState, style := "kw" }).string = "x" ∧
    (mergeToken { styleAtCursor := some "", stateAtCursor := none, stringAtCursor := some "" }
        { start := 0, end_ := 1, string := "x", state := docState, style := "kw" }).style = "kw" :=
  ⟨(c10_truthiness_fallback parserWholeLine "" ⟨0, 0⟩ _ _).2.1 rfl,
   (c10_truthiness_fallback parserWholeLine "" ⟨0, 0⟩ _ _).2.2 rfl⟩

/-- C6: a directive is a raw candidate at a directive-name position
exactly when it is a schema directive and the enclosing state's kind
maps, under the fixed Query/Mutation/Subscription/Field/AliasedField/
FragmentDefinition/FragmentSpread/InlineFragment mapping, to a
location among the directive's declared locations (any other kind maps
to no location and so matches no directive); with no enclosing state
the generator returns the empty list. -/
theorem c6_directive_location_match (cursor : Point) (token : ContextToken)
    (state : State) (schema : GraphQLSchema) (d : DirectiveDef) :
    (∀ prev, state.prevState = some prev →
      (d ∈ schema.directives.filter (fun e => canUseDirective prev.kind e) ↔
        d ∈ schema.directives ∧
        ∃ loc, kindToDirectiveLocation prev.kind = some loc ∧ loc ∈ d.locations)) ∧
    (state.prevState = none →
      getSuggestionsForDirective cursor token state schema = []) := by
  constructor
  · intro prev _
    rw [List.mem_filter, canUseDirective_iff_location]
  · intro h
    unfold getSuggestionsForDirective
    rw [h]

theorem c6_witness :
    skipDirective ∈ schemaDir.directives.filter
      (fun e => canUseDirective (State.mk "Field" 0 (some "f") none none).kind e) ∧
    fragOnlyDirective ∉ schemaDir.directives.filter
      (fun e => canUseDirective (State.mk "Field" 0 (some "f") none none).kind e) ∧
    getSuggestionsForDirective ⟨0, 0⟩ tokenQueryPos (State.mk "Directive" 1 none none none)
      schemaDir = [] := by
  refine ⟨?_, fun hmem => ?_, ?_⟩
  · exact ((c6_directive_location_match ⟨0, 0⟩ tokenQueryPos stDirectiveInField schemaDir
      skipDirective).1 _ rfl).mpr ⟨by decide, "FIELD", rfl, by decide⟩
  · obtain ⟨-, loc, hloc, hl⟩ := ((c6_directive_location_match ⟨0, 0⟩ tokenQueryPos
      stDirectiveInField schemaDir fragOnlyDirective).1 _ rfl).mp hmem
    simp [kindToDirectiveLocation, State.kind] at hloc
    subst hloc
    simp [fragOnlyDirective] at hl
  · exact (c6_directive_location_match ⟨0, 0⟩ tokenQueryPos
      (State.mk "Directive" 1 none none none) schemaDir skipDirective).2 rfl

/-- C8: at an input-value position, the raw candidates are exactly the
enum's declared members with their metadata passed through when the
unwrapped input type is an enum; exactly the two fixed literals
`true` then `false` with their fixed descriptions when it is the
boolean type; and the empty list otherwise (including an absent input
type). -/
theorem c8_input_value_literals (cursor : Point) (token : ContextToken)
    (typeInfo : TypeInfo) :
    (∀ d, getNamedType typeInfo.inputType = some d → d.kind = TypeDefKind.enum →
      getSuggestionsForInputValues cursor token typeInfo =
        hintList cursor token (d.enumValues.map (fun value =>
          { text := value.name, type := some (GQLType.named d),
            description := value.description,
            isDeprecated := some value.isDeprecated,
            deprecationReason := value.deprecationReason }))) ∧
    (getNamedType typeInfo.inputType = some GraphQLBoolean →
      getSuggestionsForInputValues cursor token typeInfo =
        hintList cursor token
          [{ text := "true", type := some (GQLType.named GraphQLBoolean),
             description := some "Not false." },
           { text := "false", type := some (GQLType.named GraphQLBoolean),
             description := some "Not true." }]) ∧
    (∀ d, getNamedType typeInfo.inputType = some d → d.kind ≠ TypeDefKind.enum →
      d ≠ GraphQLBoolean → getSuggestionsForInputValues cursor token typeInfo = []) ∧
    (getNamedType typeInfo.inputType = none →
      getSuggestionsForInputValues cursor token typeInfo = []) := by
  refine ⟨fun d hd hk => ?_, fun hb => ?_, fun d hd hk hbo => ?_, fun hn => ?_⟩ <;>
    unfold getSuggestionsForInputValues
  · rw [hd]; simp [hk]
  · rw [hb]; simp [GraphQLBoolean]
  · rw [hd]; simp [hk, hbo]
  · rw [hn]

theorem c8_witness :
    getSuggestionsForInputValues ⟨0, 0⟩ tokenQueryPos
        { inputType := some (GQLType.named GraphQLBoolean) } =
      [{ text := "true", type := some (GQLType.named GraphQLBoolean),
         description := some "Not false." },
       { text := "false", type := some (GQLType.named GraphQLBoolean),
         description := some "Not true." }] ∧
    getSuggestionsForInputValues ⟨0, 0⟩ tokenQueryPos
        { inputType := some (GQLType.named colorEnum) } =
      [{ text := "RED", type := some (GQLType.named colorEnum),
         description := some "red", isDeprecated := some false },
       { text := "GREEN", type := some (GQLType.named colorEnum),
         isDeprecated := some false }] := by
  constructor
  · exact ((c8_input_value_literals ⟨0, 0⟩ tokenQueryPos
      { inputType := some (GQLType.named GraphQLBoolean) }).2.1 rfl).trans (by decide)
  · exact ((c8_input_value_literals ⟨0, 0⟩ tokenQueryPos
      { inputType := some (GQLType.named colorEnum) }).1 colorEnum rfl rfl).trans
      (by decide)

/-- C5: at a field-name position, the raw candidates are exactly the
parent type's own fields, with the `__typename` meta-field appended
when the parent type is abstract and the `__schema` / `__type`
meta-fields additionally appended when the parent type is the schema's
query root type; when the parent type is unknown the result is the
empty list. -/
theorem c5_field_name_candidates (cursor : Point) (token : ContextToken)
    (typeInfo : TypeInfo) (schema : GraphQLSchema) :
    (typeInfo.parentType = none →
      getSuggestionsForFieldNames cursor token typeInfo schema = []) ∧
    (∀ p, typeInfo.parentType = some p →
      getSuggestionsForFieldNames cursor token typeInfo schema =
        hintList cursor token
          ((p.getFieldsF.getD [] ++
            (if isAbstractType p then [TypeNameMetaFieldDef] else []) ++
            (if some p = schema.getQueryType then [SchemaMetaFieldDef, TypeMetaFieldDef]
             else [])).map (fieldSuggestion schema))) := by
  constructor
  · intro h; unfold getSuggestionsForFieldNames; rw [h]
  · intro p hp
    unfold getSuggestionsForFieldNames
    rw [hp]
    cases hf : p.getFieldsF <;>
      by_cases h1 : isAbstractType p <;>
      by_cases h2 : some p = schema.getQueryType <;>
      simp [hf, h1, h2]

theorem c5_witness :
    getSuggestionsForFieldNames ⟨0, 0⟩ tokenQueryPos { parentType := some queryTypeQ }
        schemaQ =
      hintList ⟨0, 0⟩ tokenQueryPos
        (([fieldFDef] ++ [] ++ [SchemaMetaFieldDef, TypeMetaFieldDef]).map
          (fieldSuggestion schemaQ)) ∧
    getSuggestionsForFieldNames ⟨0, 0⟩ tokenQueryPos {} schemaQ = [] := by
  constructor
  · rw [(c5_field_name_candidates ⟨0, 0⟩ tokenQueryPos { parentType := some queryTypeQ }
      schemaQ).2 queryTypeQ rfl]
    decide
  · exact (c5_field_name_candidates ⟨0, 0⟩ tokenQueryPos {} schemaQ).1 rfl

/-- C1: for every lexer, schema, document text and cursor position,
`getAutocompleteSuggestions` returns a list of suggestions — the
embedding is a total function with no failure path — and when even the
Invalid-state unwrap finds no recoverable state the result degrades to
the empty list. -/
theorem c1_total_returns_list (P : OnlineParser) (schema : GraphQLSchema)
    (queryText : String) (cursor : Point) :
    ∃ result : List Suggestion,
      getAutocompleteSuggestions P schema queryText cursor = result ∧
      ((getTokenAtPosition P queryText cursor).state.kind = "Invalid" →
        (getTokenAtPosition P queryText cursor).state.prevState = none → result = []) := by
  refine ⟨_, rfl, fun h1 h2 => ?_⟩
  unfold getAutocompleteSuggestions suggestionsForToken
  simp [h1, h2]

theorem c1_witness : getAutocompleteSuggestions parserInvalid schemaQ "" ⟨0, 0⟩ = [] := by
  obtain ⟨result, hres, hdeg⟩ := c1_total_returns_list parserInvalid schemaQ "" ⟨0, 0⟩
  rw [hres]
  exact hdeg rfl rfl

/-- C4 fails as stated: in the chain `Query - SelectionSet - Field f -
Arguments - Argument a - Argument zzz` against a schema where `f`
declares only the boolean argument `a`, the innermost argument name
`zzz` matches no entry of the resolved argument-definition list, yet
the resolver keeps the stale `argDef` from the earlier sibling
argument, the input type stays the stale boolean type, and the
input-value generator returns the two boolean literals instead of an
empty candidate list. -/
theorem c4_counterexample :
    (getTypeInfo schemaQ stArgStale).argDef = some booleanArgDef ∧
    (getTypeInfo schemaQ stArgStale).inputType = some (GQLType.named GraphQLBoolean) ∧
    suggestionsForToken parserWholeLine schemaQ "" ⟨0, 0⟩ tokenArgStale ≠ [] := by
  refine ⟨by decide, by decide, ?_⟩
  decide

/-- C4 amended: an unresolved name yields an unknown marker only where
the source assigns one — an `Argument` state whose name matches no
entry of the resolved argument-definition list leaves `argDef` at its
previous value (so `none`, propagating to a `none` input type and an
empty candidate list, only when no earlier traversal step had matched
an argument), an absent input type makes the input-value generator
return the empty list, and a field name unknown on the parent type
sets both `fieldDef` and `type` to `none`. -/
theorem typeInfoStep_argument (schema : GraphQLSchema) (acc : TypeInfo) (stp : Nat)
    (n t : Option String) (pp : Option State) :
    typeInfoStep schema acc (State.mk "Argument" stp n t pp) =
      (let argDef : Option ArgDef := match acc.argDefs with
        | some defs =>
            match defs.find? (fun d => n = some d.name) with
            | some d => some d
            | none => acc.argDef
        | none => acc.argDef
       { acc with argDef := argDef,
                  inputType := argDef.bind (fun a => resolveTypeRef schema a.type) }) := rfl

theorem typeInfoStep_field (schema : GraphQLSchema) (acc : TypeInfo) (stp : Nat)
    (n t : Option String) (pp : Option State) :
    typeInfoStep schema acc (State.mk "Field" stp n t pp) =
      (if acc.type = none ∨ ¬ strTruthy n then { acc with fieldDef := none }
       else
        let fieldDef := match acc.parentType with
          | some parentType => getFieldDef schema parentType (n.getD "")
          | none => none
        { acc with fieldDef := fieldDef,
                   type := fieldDef.bind (fun f => resolveTypeRef schema f.type) }) := rfl

theorem c4_amended_unresolved_names (schema : GraphQLSchema) (acc : TypeInfo) (st : State)
    (cursor : Point) (token : ContextToken) (typeInfo : TypeInfo) :
    (st.kind = "Argument" →
      (∀ defs, acc.argDefs = some defs →
        defs.find? (fun d => st.name = some d.name) = none) →
      (typeInfoStep schema acc st).argDef = acc.argDef ∧
      (acc.argDef = none → (typeInfoStep schema acc st).inputType = none)) ∧
    (typeInfo.inputType = none →
      getSuggestionsForInputValues cursor token typeInfo = []) ∧
    (st.kind = "Field" → acc.type ≠ none → strTruthy st.name = true →
      (∀ p, acc.parentType = some p → getFieldDef schema p (st.name.getD "") = none) →
      (typeInfoStep schema acc st).fieldDef = none ∧
      (typeInfoStep schema acc st).type = none) := by
  obtain ⟨k, stp, n, t, pp⟩ := st
  refine ⟨fun hk hfind => ?_, fun hin => ?_, fun hk hty hname hfd => ?_⟩
  · simp only [State.kind] at hk
    simp only [State.name] at hfind
    subst hk
    rw [typeInfoStep_argument]
    cases hdefs : acc.argDefs with
    | none => exact ⟨by simp, fun ha => by simp [ha]⟩
    | some defs =>
        exact ⟨by simp [hfind defs hdefs], fun ha => by simp [hfind defs hdefs, ha]⟩
  · unfold getSuggestionsForInputValues
    rw [hin]
    rfl
  · simp only [State.kind] at hk
    simp only [State.name] at hname hfd
    subst hk
    rw [typeInfoStep_field]
    rw [if_neg (by simp [hty, hname])]
    cases hp : acc.parentType with
    | none => exact ⟨rfl, rfl⟩
    | some p => simp [hfd p hp]

theorem c4_amended_witness :
    (typeInfoStep schemaQ {} (State.mk "Argument" 2 (some "zzz") none none)).argDef = none ∧
    (typeInfoStep schemaQ {} (State.mk "Argument" 2 (some "zzz") none none)).inputType = none ∧
    getSuggestionsForInputValues ⟨0, 0⟩ tokenQueryPos {} = [] ∧
    (typeInfoStep schemaQ
      { type := some (GQLType.named queryTypeQ), parentType := some queryTypeQ }
      (State.mk "Field" 0 (some "nope") none none)).fieldDef = none ∧
    (typeInfoStep schemaQ
      { type := some (GQLType.named queryTypeQ), parentType := some queryTypeQ }
      (State.mk "Field" 0 (some "nope") none none)).type = none := by
  have h1 := (c4_amended_unresolved_names schemaQ {}
    (State.mk "Argument" 2 (some "zzz") none none) ⟨0, 0⟩ tokenQueryPos {}).1
    rfl (fun defs hdefs => by cases hdefs)
  have h2 := (c4_amended_unresolved_names schemaQ {}
    (State.mk "Argument" 2 (some "zzz") none none) ⟨0, 0⟩ tokenQueryPos {}).2.1 rfl
  have h3 := (c4_amended_unresolved_names schemaQ
    { type := some (GQLType.named queryTypeQ), parentType := some queryTypeQ }
    (State.mk "Field" 0 (some "nope") none none) ⟨0, 0⟩ tokenQueryPos {}).2.2
    rfl (by decide) rfl (fun p hp => by
      have hpq : queryTypeQ = p := Option.some.inj hp
      subst hpq
      decide)
  exact ⟨h1.1, h1.2 rfl, h2, h3.1, h3.2⟩

/-- C3 fails as stated: with a lexer whose every token consumes the
rest of its line, scanning `"ab\ncd"` with the cursor at row 0 column
0 makes the first token of row 0 end past the cursor and break — yet
the source's `break` leaves only the inner per-line loop, the next
line is still tokenized, and the returned token is the last token of
line 1 (`"cd"`).  Under the abort-the-whole-scan semantics the claim
describes, the returned token would be the row-0 token `"ab"`. -/
theorem c3_counterexample :
    (getTokenAtPosition parserWholeLine "ab\ncd" ⟨0, 0⟩).string = "cd" ∧
    (getTokenAtPositionAbortAll parserWholeLine "ab\ncd" ⟨0, 0⟩).string = "ab" ∧
    (getTokenAtPosition parserWholeLine "ab\ncd" ⟨0, 0⟩).string ≠
      (getTokenAtPositionAbortAll parserWholeLine "ab\ncd" ⟨0, 0⟩).string := by
  exact ⟨by decide, by decide, by decide⟩

/-- C3 amended: when a token emitted on the cursor's row has an end
column exceeding the cursor's column, the callback breaks without
capturing, and the break aborts the scan of that line only: a first
overshooting token ends its line's loop immediately with the capture
accumulator unchanged, and tokens of any row other than the cursor's
never alter the capture, so the previously captured
state/style/string survive; lines after the cursor's row are still
scanned. -/
theorem c3_amended_break_is_per_line (cursor : Point) (P : OnlineParser) (i : Nat)
    (stream : CharacterStream) (state : State) (style : String) (acc : CaptureAcc) :
    (i ≠ cursor.row → captureCallback cursor stream state style i acc = (acc, false)) ∧
    (stream.getCurrentPosition > cursor.column →
      captureCallback cursor stream state style cursor.row acc = (acc, true)) ∧
    (stream.pos < stream.sourceText.length →
      stream.pos + 1 + (P.tokenFn state stream.sourceText stream.pos).extra >
        cursor.column →
      runLine P (captureCallback cursor) cursor.row stream state style acc =
        (⟨(P.tokenFn state stream.sourceText stream.pos).state,
          (P.tokenFn state stream.sourceText stream.pos).style,
          CharacterStream.mk stream.sourceText stream.pos
            (stream.pos + 1 + (P.tokenFn state stream.sourceText stream.pos).extra),
          acc⟩, true)) := by
  refine ⟨fun h => ?_, fun h => ?_, fun h1 h2 => ?_⟩
  · unfold captureCallback
    rw [if_neg h]
  · unfold captureCallback
    rw [if_pos rfl, if_pos h]
  · unfold runLine
    have hf : stream.sourceText.length + 1 - stream.pos =
        (stream.sourceText.length - stream.pos) + 1 := by omega
    rw [hf]
    simp only [runLineFuel]
    rw [if_pos h1]
    simp only [captureCallback, CharacterStream.getCurrentPosition]
    simp [h2]

theorem c3_amended_witness :
    captureCallback ⟨0, 0⟩ ⟨"ab", 0, 1⟩ docState "s" 1 {} = ({}, false) ∧
    captureCallback ⟨0, 0⟩ ⟨"ab", 0, 1⟩ docState "s" 0 {} = ({}, true) ∧
    runLine parserWholeLine (captureCallback ⟨0, 0⟩) 0 ⟨"ab", 0, 0⟩ docState "" {} =
      (⟨docState, "punctuation", ⟨"ab", 0, 3⟩, {}⟩, true) := by
  refine ⟨?_, ?_, ?_⟩
  · exact (c3_amended_break_is_per_line ⟨0, 0⟩ parserWholeLine 1 ⟨"ab", 0, 1⟩ docState
      "s" {}).1 (by decide)
  · exact (c3_amended_break_is_per_line ⟨0, 0⟩ parserWholeLine 1 ⟨"ab", 0, 1⟩ docState
      "s" {}).2.1 (by decide)
  · exact (c3_amended_break_is_per_line ⟨0, 0⟩ parserWholeLine 0 ⟨"ab", 0, 0⟩ docState
      "" {}).2.2 (by decide) (by decide)

/-- C9 fails as stated: the capture site performs the shallow copy
`{...state}`, so the snapshot's observed chain coincides with the live
chain at capture time, but mutating the outer node (reachable through
the snapshot's `prev` pointer) afterwards changes what the snapshot
observes — a deep copy would be immune to that mutation. -/
theorem c9_counterexample :
    readChain (spreadCopy heapTwo 1).1 4 (spreadCopy heapTwo 1).2 =
      readChain heapTwo 4 1 ∧
    readChain (mutateNode (spreadCopy heapTwo 1).1 0 mutatedOuterNode) 4
        (spreadCopy heapTwo 1).2 ≠
      readChain heapTwo 4 1 := by
  exact ⟨by decide, by decide⟩

/-- C9 amended: the captured snapshot is a shallow copy — a freshly
allocated node carrying the captured state's own fields (its
`prevState` reference included), so subsequent mutation of the live
state object itself leaves the snapshot node unchanged; only nodes
reachable through `prev` remain shared with the live chain. -/
theorem c9_amended_shallow_copy (h : Heap) (a : Nat) (n live : StateNode)
    (hget : h.get? a = some n) :
    (spreadCopy h a).2 = h.length ∧
    (spreadCopy h a).1.get? (spreadCopy h a).2 = some n ∧
    (mutateNode (spreadCopy h a).1 a live).get? (spreadCopy h a).2 = some n := by
  have ha : a < h.length := by
    by_contra hc
    rw [List.get?_eq_none.mpr (by omega)] at hget
    cases hget
  unfold spreadCopy mutateNode
  rw [hget]
  refine ⟨rfl, ?_, ?_⟩
  · exact List.get?_concat_length h n
  · rw [List.get?_set_ne live (h ++ [n]) (show a ≠ h.length by omega)]
    exact List.get?_concat_length h n

theorem c9_amended_witness :
    (spreadCopy heapTwo 1).2 = heapTwo.length ∧
    (spreadCopy heapTwo 1).1.get? (spreadCopy heapTwo 1).2 =
      some { kind := "Field", step := 1, name := some "f", type := none, prev := some 0 } ∧
    (mutateNode (spreadCopy heapTwo 1).1 1 mutatedOuterNode).get? (spreadCopy heapTwo 1).2 =
      some { kind := "Field", step := 1, name := some "f", type := none, prev := some 0 } :=
  c9_amended_shallow_copy heapTwo 1
    { kind := "Field", step := 1, name := some "f", type := none, prev := some 0 }
    mutatedOuterNode rfl

/-- Outermost-first chain of a state with an enclosing state: the
enclosing state's chain followed by the state itself. -/
theorem chainOut_prev (k : String) (stp : Nat) (n t : Option String) (p : State) :
    (State.mk k stp n t (some p)).chainOut =
      p.chainOut ++ [State.mk k stp n t (some p)] := by
  unfold State.chainOut
  simp [State.chainIn]

/-- The type-info fold ignores an `Invalid` head state: resolving from
an `Invalid` state is the same as resolving from its previous state. -/
theorem getTypeInfo_invalid_prev (schema : GraphQLSchema) (stp : Nat)
    (n t : Option String) (p : State) :
    getTypeInfo schema (State.mk "Invalid" stp n t (some p)) = getTypeInfo schema p := by
  unfold getTypeInfo
  rw [chainOut_prev, List.foldl_append]
  rfl

/-- The definition-state lookup ignores an `Invalid` head state. -/
theorem getDefinitionState_invalid_prev (stp : Nat) (n t : Option String) (p : State) :
    getDefinitionState (State.mk "Invalid" stp n t (some p)) = getDefinitionState p := by
  unfold getDefinitionState
  rw [chainOut_prev, List.foldl_append]
  rfl

set_option maxHeartbeats 2000000 in
/-- The dispatcher reads the token only through its string, start
column and (for fragment spreads) its definition state: two tokens
sharing those agree. -/
theorem dispatchSuggestions_state_only (P : OnlineParser) (schema : GraphQLSchema)
    (queryText : String) (cursor : Point) (a b : Nat) (str sty : String)
    (st1 st2 : State) (state : State) (typeInfo : TypeInfo)
    (hdef : getDefinitionState st1 = getDefinitionState st2) :
    dispatchSuggestions P schema queryText cursor ⟨a, b, str, st1, sty⟩ state typeInfo =
      dispatchSuggestions P schema queryText cursor ⟨a, b, str, st2, sty⟩ state typeInfo := by
  have hfrag : getSuggestionsForFragmentSpread P cursor ⟨a, b, str, st1, sty⟩ typeInfo
      schema queryText =
      getSuggestionsForFragmentSpread P cursor ⟨a, b, str, st2, sty⟩ typeInfo
        schema queryText := by
    have hf : fragmentFilter (⟨a, b, str, st1, sty⟩ : ContextToken) typeInfo schema =
        fragmentFilter (⟨a, b, str, st2, sty⟩ : ContextToken) typeInfo schema := by
      funext frag
      unfold fragmentFilter
      dsimp only
      rw [hdef]
    unfold getSuggestionsForFragmentSpread relevantFragments
    rw [hf]
    rfl
  simp only [dispatchSuggestions]
  split_ifs <;> first | exact hfrag | rfl

/-- C2: for every token whose state has kind `Invalid`, the dispatcher
unwraps it to the last valid state `prevState` points to — returning
the empty list when there is none — and the resolved type context is
that of the unwrapped valid state (the `Invalid` head contributes
nothing), so the suggestions equal those computed for the token
carrying the unwrapped state itself. -/
theorem c2_invalid_unwrap (P : OnlineParser) (schema : GraphQLSchema) (queryText : String)
    (cursor : Point) (token : ContextToken) (h : token.state.kind = "Invalid") :
    (token.state.prevState = none →
      suggestionsForToken P schema queryText cursor token = []) ∧
    (∀ p, token.state.prevState = some p → p.kind ≠ "Invalid" →
      getTypeInfo schema token.state = getTypeInfo schema p ∧
      suggestionsForToken P schema queryText cursor token =
        suggestionsForToken P schema queryText cursor
          ⟨token.start, token.end_, token.string, p, token.style⟩) := by
  obtain ⟨a, b, str, st, sty⟩ := token
  obtain ⟨k, stp, n, t, pp⟩ := st
  have hk : k = "Invalid" := h
  subst hk
  constructor
  · intro hnone
    cases pp with
    | none => rfl
    | some q => exact Option.noConfusion hnone
  · intro p hp hpk
    cases pp with
    | none => exact Option.noConfusion hp
    | some q =>
        cases Option.some.inj hp
        refine ⟨getTypeInfo_invalid_prev schema stp n t p, ?_⟩
        have hR : suggestionsForToken P schema queryText cursor ⟨a, b, str, p, sty⟩ =
            dispatchSuggestions P schema queryText cursor ⟨a, b, str, p, sty⟩ p
              (getTypeInfo schema p) := by
          unfold suggestionsForToken
          rw [if_neg hpk]
        calc
          suggestionsForToken P schema queryText cursor
              ⟨a, b, str, State.mk "Invalid" stp n t (some p), sty⟩ =
              dispatchSuggestions P schema queryText cursor
                ⟨a, b, str, State.mk "Invalid" stp n t (some p), sty⟩ p
                (getTypeInfo schema (State.mk "Invalid" stp n t (some p))) := rfl
          _ = dispatchSuggestions P schema queryText cursor
                ⟨a, b, str, State.mk "Invalid" stp n t (some p), sty⟩ p
                (getTypeInfo schema p) := by rw [getTypeInfo_invalid_prev]
          _ = dispatchSuggestions P schema queryText cursor ⟨a, b, str, p, sty⟩ p
                (getTypeInfo schema p) :=
              dispatchSuggestions_state_only P schema queryText cursor a b str sty _ _ p _
                (getDefinitionState_invalid_prev stp n t p)
          _ = suggestionsForToken P schema queryText cursor ⟨a, b, str, p, sty⟩ :=
              hR.symm

theorem c2_witness :
    suggestionsForToken parserWholeLine schemaQ "" ⟨0, 0⟩
      ⟨0, 0, "", invalidNoPrev, ""⟩ = [] ∧
    getTypeInfo schemaQ invalidOverDoc = getTypeInfo schemaQ docState := by
  constructor
  · exact (c2_invalid_unwrap parserWholeLine schemaQ "" ⟨0, 0⟩
      ⟨0, 0, "", invalidNoPrev, ""⟩ rfl).1 rfl
  · exact ((c2_invalid_unwrap parserWholeLine schemaQ "" ⟨0, 0⟩
      ⟨0, 1, "x", invalidOverDoc, "kw"⟩ rfl).2 docState rfl (by decide)).1

/-- C7: every fragment that survives the fragment-spread filter has a
type condition naming a known schema type, is not named like the
innermost enclosing fragment-definition state (no self-reference),
and has a composite parent type and a composite condition type that
overlap under the schema's type-compatibility rule; every emitted
suggestion carries the description `fragment <name> on <type>` of some
surviving fragment whose name is its text. -/
theorem c7_fragment_spread (P : OnlineParser) (cursor : Point) (token : ContextToken)
    (typeInfo : TypeInfo) (schema : GraphQLSchema) (queryText : String)
    (frag : FragmentDef) (s : Suggestion) :
    (frag ∈ relevantFragments P token typeInfo schema queryText →
      (schema.getType frag.typeCondition).isSome = true ∧
      (∀ d, getDefinitionState token.state = some d → d.kind = "FragmentDefinition" →
        d.name ≠ some frag.name) ∧
      (∃ p, typeInfo.parentType = some p ∧ isCompositeType p = true ∧
        ∃ ty, schema.getType frag.typeCondition = some ty ∧ isCompositeType ty = true ∧
          doTypesOverlap schema p ty = true)) ∧
    (s ∈ getSuggestionsForFragmentSpread P cursor token typeInfo schema queryText →
      ∃ fr, fr ∈ relevantFragments P token typeInfo schema queryText ∧
        s.text = fr.name ∧
        s.description = some ("fragment " ++ fr.name ++ " on " ++ fr.typeCondition)) := by
  constructor
  · intro hmem
    unfold relevantFragments at hmem
    have hfil := (List.mem_filter.mp hmem).2
    unfold fragmentFilter at hfil
    simp only [Bool.and_eq_true] at hfil
    obtain ⟨⟨⟨⟨hA, hB⟩, hC⟩, hD⟩, hE⟩ := hfil
    refine ⟨hA, ?_, ?_⟩
    · intro d hd hkind hname
      rw [hd] at hB
      simp [hkind, hname] at hB
    · cases hpt : typeInfo.parentType with
      | none => rw [hpt] at hC; exact absurd hC (by simp)
      | some p =>
          rw [hpt] at hC hE
          cases hgt : schema.getType frag.typeCondition with
          | none => rw [hgt] at hD; exact absurd hD (by simp)
          | some ty =>
              rw [hgt] at hD hE
              exact ⟨p, rfl, hC, ty, rfl, hD, hE⟩
  · intro hs
    unfold getSuggestionsForFragmentSpread at hs
    have hs' := hintList_mem_of_mem _ _ _ _ hs
    obtain ⟨fr, hfr, hmap⟩ := List.mem_map.mp hs'
    refine ⟨fr, hfr, ?_, ?_⟩ <;> rw [← hmap]

theorem c7_witness :
    (schemaT.getType "T").isSome = true ∧
    (∃ fr, fr ∈ relevantFragments parserFragF tokenQueryPos { parentType := some typeT }
        schemaT "x" ∧
      ({ text := "F", type := some (GQLType.named typeT),
         description := some "fragment F on T" } : Suggestion).text = fr.name ∧
      ({ text := "F", type := some (GQLType.named typeT),
         description := some "fragment F on T" } : Suggestion).description =
        some ("fragment " ++ fr.name ++ " on " ++ fr.typeCondition)) := by
  constructor
  · exact ((c7_fragment_spread parserFragF ⟨0, 0⟩ tokenQueryPos { parentType := some typeT }
      schemaT "x" ⟨"F", "T"⟩
      { text := "F", type := some (GQLType.named typeT),
        description := some "fragment F on T" }).1 (by decide)).1
  · exact (c7_fragment_spread parserFragF ⟨0, 0⟩ tokenQueryPos { parentType := some typeT }
      schemaT "x" ⟨"F", "T"⟩
      { text := "F", type := some (GQLType.named typeT),
        description := some "fragment F on T" }).2 (by decide)
